import Mathlib

/-!
Shallow embedding of `SqlLiteSyncStorage` (packages/sync-core/src/lib/SqlLiteSyncStorage.ts).

The SQLite tables are modelled as association lists keyed by their primary key
(order models SQLite's unspecified iteration order); record `state` blobs are
opaque strings (the source stores `JSON.stringify(state)`), clocks are integers.
A transaction handle is the pair of the `_didIncrementClock` flag and the store
state; a transaction body is a list of handle operations, and `runOps` threads
the state through them, short-circuiting on a thrown SQL error
(`Except.error`).  `storage.transactionSync` semantics (commit on normal
return, full rollback and rethrow on error) are reflected in
`SqlLiteSyncStorage.transaction`.
-/

set_option maxHeartbeats 1000000
set_option maxRecDepth 100000

namespace SqlLiteSyncStorage

/-- Constant `TOMBSTONE_PRUNE_BUFFER_SIZE = 1000` from the source. -/
def TOMBSTONE_PRUNE_BUFFER_SIZE : Nat := 1000

/-- Constant `MAX_TOMBSTONES = 5000` from the source. -/
def MAX_TOMBSTONES : Nat := 5000

/-- A row of the `documents` table: serialized state and `lastChangedClock`. -/
structure DocRow where
  state : String
  lastChangedClock : Int
deriving DecidableEq, Repr

/-- The persistent state: the four SQLite tables.  The single-row `clock`
table contributes the two integer fields. -/
structure StoreState where
  documents : List (String × DocRow)
  tombstones : List (String × Int)
  metadata : List (String × String)
  documentClock : Int
  tombstoneHistoryStartsAtClock : Int
deriving DecidableEq, Repr

/-- Does the table contain a row with primary key `k`? -/
def tableHas (t : List (String × β)) (k : String) : Bool :=
  t.any (fun e => e.1 == k)

/-- Statement `DELETE FROM t WHERE id = k`. -/
def tableDelete (t : List (String × β)) (k : String) : List (String × β) :=
  t.filter (fun e => e.1 != k)

/-- Statement `INSERT OR REPLACE INTO t`. -/
def tableSet (t : List (String × β)) (k : String) (v : β) : List (String × β) :=
  tableDelete t k ++ [(k, v)]

/-- Plain `INSERT INTO t`: violates the primary-key constraint (throws,
modelled as `none`) when a row with key `k` already exists. -/
def tableInsert (t : List (String × β)) (k : String) (v : β) :
    Option (List (String × β)) :=
  if tableHas t k then none else some (t ++ [(k, v)])

/-- Method `getClock()`: read `documentClock` from the `clock` row. -/
def getClock (s : StoreState) : Int := s.documentClock

/-- A transaction handle: the `_didIncrementClock` flag plus the store. -/
structure TxState where
  didIncrementClock : Bool
  store : StoreState
deriving DecidableEq, Repr

/-- Method `getNextClock()`: on first call in the transaction, bump `documentClock`
by one; always return the current clock. -/
def getNextClock (t : TxState) : TxState × Int :=
  if t.didIncrementClock then
    (t, t.store.documentClock)
  else
    (⟨true, { t.store with documentClock := t.store.documentClock + 1 }⟩,
      t.store.documentClock + 1)

/-- Method `setDocument(id, state)`: advance the clock (at most once per
transaction) and `INSERT OR REPLACE` the document row.  Note: the source does
NOT touch the `tombstones` table here. -/
def setDocument (t : TxState) (id : String) (state : String) : TxState :=
  let p := getNextClock t
  { p.1 with store :=
      { p.1.store with documents := tableSet p.1.store.documents id ⟨state, p.2⟩ } }

/-- Method `deleteDocument(id)`: advance the clock, `DELETE` the document row and
plain-`INSERT` a tombstone `(id, clock)`; the insert throws a UNIQUE
constraint error when a tombstone for `id` already exists.  The source also
calls `pruneTombstones()`, but that is a trailing-edge throttled callback
(`leading: false`), so no pruning happens inside the transaction. -/
def deleteDocument (t : TxState) (id : String) : Except String TxState :=
  let p := getNextClock t
  let docs := tableDelete p.1.store.documents id
  match tableInsert p.1.store.tombstones id p.2 with
  | none => Except.error "UNIQUE constraint failed: tombstones.id"
  | some ts =>
      Except.ok { p.1 with store := { p.1.store with documents := docs, tombstones := ts } }

/-- Method `setMetadata(key, value)`: `INSERT OR REPLACE` into `metadata`; no clock
effect. -/
def setMetadata (t : TxState) (key value : String) : TxState :=
  { t with store := { t.store with metadata := tableSet t.store.metadata key value } }

/-- One step of a transaction body: the mutating handle operations, plus
`throwErr` for a body that raises an arbitrary user error. -/
inductive TxOp where
  | set (id state : String)
  | del (id : String)
  | setMeta (key value : String)
  | throwErr (msg : String)
deriving DecidableEq, Repr

/-- Is the op a document mutation (`setDocument` / `deleteDocument`)? -/
def TxOp.isMutation : TxOp → Bool
  | .set _ _ => true
  | .del _ => true
  | _ => false

/-- Apply one body operation to the transaction handle. -/
def applyOp (t : TxState) : TxOp → Except String TxState
  | .set id st => Except.ok (setDocument t id st)
  | .del id => deleteDocument t id
  | .setMeta k v => Except.ok (setMetadata t k v)
  | .throwErr m => Except.error m

/-- Run a transaction body: fold the operations, short-circuiting on the
first thrown error. -/
def runOps (t : TxState) : List TxOp → Except String TxState
  | [] => Except.ok t
  | op :: ops =>
      match applyOp t op with
      | Except.ok t' => runOps t' ops
      | Except.error e => Except.error e

/-- The value returned by `transaction` (the `result` of the body is
irrelevant to the claims and omitted). -/
structure TxnResult where
  documentClock : Int
  didChange : Bool
deriving DecidableEq, Repr

/-- Method `transaction(source, callback)` with `numListeners` registered listeners.
Returns the post-call store state, the list of `(source, documentClock)`
notifications delivered (one per listener, in registration order), and the
result or the rethrown body error.  `storage.transactionSync` rolls the store
back to its pre-call state when the body throws, and no listener fires. -/
def transaction (s : StoreState) (source : String) (numListeners : Nat)
    (ops : List TxOp) :
    StoreState × List (String × Int) × Except String TxnResult :=
  let clockBefore := getClock s
  match runOps ⟨false, s⟩ ops with
  | Except.error e => (s, [], Except.error e)
  | Except.ok t =>
      let clockAfter := getClock t.store
      let didChange := clockBefore < clockAfter
      let notifications :=
        if didChange then List.replicate numListeners (source, clockAfter) else []
      (t.store, notifications, Except.ok ⟨clockAfter, decide didChange⟩)

/-- The three change kinds of the change feed. -/
inductive Change where
  | wipeAll
  | put (state : String)
  | delete (id : String)
deriving DecidableEq, Repr

/-- Method `getChangesSince(sinceClock)`, straight from the source: return `[]` when
`sinceClock` equals the clock; reset `sinceClock := -1` when it exceeds the
clock (after logging); emit a leading `WIPE_ALL` and reset `sinceClock := -1`
when `sinceClock` is below the tombstone watermark; then one `PUT` per
document with `lastChangedClock > sinceClock` and one `DELETE` per tombstone
with `clock > sinceClock`. -/
def getChangesSince (s : StoreState) (sinceClock : Int) : List Change :=
  let clock := getClock s
  if sinceClock = clock then []
  else
    let since1 := if clock < sinceClock then -1 else sinceClock
    let w := s.tombstoneHistoryStartsAtClock
    let since2 := if since1 < w then -1 else since1
    let head := if since1 < w then [Change.wipeAll] else []
    head
      ++ (s.documents.filter (fun d => since2 < d.2.lastChangedClock)).map
          (fun d => Change.put d.2.state)
      ++ (s.tombstones.filter (fun t => since2 < t.2)).map
          (fun t => Change.delete t.1)

/-- Descending-clock order used by `ORDER BY clock DESC`. -/
def clockGE (a b : String × Int) : Prop := b.2 ≤ a.2

instance : DecidableRel clockGE := fun a b => inferInstanceAs (Decidable (b.2 ≤ a.2))

instance : IsTotal (String × Int) clockGE :=
  ⟨fun a b => (Int.le_total b.2 a.2).imp id id⟩

instance : IsTrans (String × Int) clockGE :=
  ⟨fun _ _ _ hab hbc => le_trans hbc hab⟩

/-- Query `SELECT id, clock FROM tombstones ORDER BY clock DESC` (a stable sort is
one legitimate reading of SQLite's unspecified tie order). -/
def sortTombstonesDesc (ts : List (String × Int)) : List (String × Int) :=
  ts.insertionSort clockGE

/-- The clock stored at index `i` of the sorted tombstone array,
`tombstones[i]?.clock` with optional chaining. -/
def optClock (t : List (String × Int)) (i : Nat) : Option Int :=
  (t[i]?).map (fun e => e.2)

/-- The `while` loop of `pruneTombstones`: advance `cutoff` while the
tombstones at `cutoff - 1` and `cutoff` share a clock. -/
def findCutoff (t : List (String × Int)) (k : Nat) : Nat :=
  if h : k < t.length ∧ optClock t (k - 1) = optClock t k then
    findCutoff t (k + 1)
  else k
termination_by t.length - k
decreasing_by exact Nat.sub_lt_sub_left h.1 (Nat.lt_succ_self k)

/-- The body of `pruneTombstones` (the trailing-edge throttled callback):
when the tombstone count exceeds `MAX_TOMBSTONES`, sort by clock descending,
compute the cutoff, set the watermark to `tombstones[cutoff]?.clock ?? getClock()`
and delete every tombstone from index `cutoff` on. -/
def pruneTombstonesBody (s : StoreState) : StoreState :=
  if MAX_TOMBSTONES < s.tombstones.length then
    let tombstones := sortTombstonesDesc s.tombstones
    let cutoff := findCutoff tombstones TOMBSTONE_PRUNE_BUFFER_SIZE
    let newW := (optClock tombstones cutoff).getD (getClock s)
    let idsToDelete := (tombstones.drop cutoff).map (fun e => e.1)
    { s with
        tombstoneHistoryStartsAtClock := newW,
        tombstones := s.tombstones.filter (fun e => decide (e.1 ∉ idsToDelete)) }
  else s

/-- States reachable through the public API: all clocks are non-negative. -/
def WellFormed (s : StoreState) : Prop :=
  0 ≤ s.documentClock ∧ 0 ≤ s.tombstoneHistoryStartsAtClock ∧
    (∀ d ∈ s.documents, 0 ≤ d.2.lastChangedClock) ∧ (∀ t ∈ s.tombstones, 0 ≤ t.2)

/-- The empty store (fresh tables, clock row `(0, 0)`). -/
def emptyStore : StoreState := ⟨[], [], [], 0, 0⟩

/-- The store of spec scenario S4: one document at clock 12, one tombstone at
clock 11, `documentClock = 12`, watermark 10. -/
def s4Store : StoreState := ⟨[("d", ⟨"sd", 12⟩)], [("t1", 11)], [], 12, 10⟩

/-- Tombstone table for exercising the pruner: 5001 rows (one more than
`MAX_TOMBSTONES`) with pairwise distinct ids and pairwise distinct clocks
5001 down to 1, listed in descending clock order. -/
def cexTombstones : List (String × Int) :=
  (List.range 5001).map (fun i => (String.mk (List.replicate i 'a'), 5001 - (i : Int)))

/-- A store state whose tombstone count just exceeds `MAX_TOMBSTONES`. -/
def cexStore : StoreState := ⟨[], cexTombstones, [], 5001, 0⟩

/-- Relation between transaction-handle states describing how `runOps` can
evolve the clock: either flag and clock are untouched, or the flag flips from
`false` to `true` and the clock advances by exactly one. -/
def ClockEvolution (t t' : TxState) : Prop :=
  (t'.didIncrementClock = t.didIncrementClock ∧
      t'.store.documentClock = t.store.documentClock) ∨
    (t.didIncrementClock = false ∧ t'.didIncrementClock = true ∧
      t'.store.documentClock = t.store.documentClock + 1)

end SqlLiteSyncStorage

namespace SqlLiteSyncStorage

/-! ### Helper lemmas -/

theorem clockEvolution_refl (t : TxState) : ClockEvolution t t :=
  Or.inl ⟨rfl, rfl⟩

theorem clockEvolution_trans {t t' t'' : TxState} (h1 : ClockEvolution t t')
    (h2 : ClockEvolution t' t'') : ClockEvolution t t'' := by
  rcases h1 with ⟨hf1, hc1⟩ | ⟨hf1, hf1', hc1⟩ <;>
    rcases h2 with ⟨hf2, hc2⟩ | ⟨hf2, hf2', hc2⟩
  · exact Or.inl ⟨hf2.trans hf1, hc2.trans hc1⟩
  · exact Or.inr ⟨hf1.symm.trans hf2, hf2', by omega⟩
  · exact Or.inr ⟨hf1, hf2.trans hf1', by omega⟩
  · exact absurd (hf1'.symm.trans hf2) (by simp)

theorem getNextClock_clockEvolution (t : TxState) :
    ClockEvolution t (getNextClock t).1 := by
  by_cases hf : t.didIncrementClock <;> simp [getNextClock, hf, ClockEvolution]

theorem deleteDocument_ok {t t' : TxState} {id : String}
    (h : deleteDocument t id = Except.ok t') :
    t'.didIncrementClock = (getNextClock t).1.didIncrementClock ∧
      t'.store.documentClock = (getNextClock t).1.store.documentClock := by
  simp only [deleteDocument] at h
  cases hins : tableInsert (getNextClock t).1.store.tombstones id (getNextClock t).2 <;>
    rw [hins] at h
  · exact absurd h (by simp)
  · simp only [Except.ok.injEq] at h
    subst h
    exact ⟨rfl, rfl⟩

theorem applyOp_clockEvolution {t t' : TxState} {op : TxOp}
    (h : applyOp t op = Except.ok t') : ClockEvolution t t' := by
  cases op with
  | set id st =>
      simp only [applyOp, Except.ok.injEq] at h
      subst h
      exact getNextClock_clockEvolution t
  | del id =>
      simp only [applyOp] at h
      have h2 := getNextClock_clockEvolution t
      rcases deleteDocument_ok h with ⟨e1, e2⟩
      unfold ClockEvolution at h2 ⊢
      rw [e1, e2]
      exact h2
  | setMeta k v =>
      simp only [applyOp, Except.ok.injEq] at h
      subst h
      exact Or.inl ⟨rfl, rfl⟩
  | throwErr m => simp [applyOp] at h

theorem runOps_clockEvolution {ops : List TxOp} {t t' : TxState}
    (h : runOps t ops = Except.ok t') : ClockEvolution t t' := by
  induction ops generalizing t with
  | nil => simp only [runOps, Except.ok.injEq] at h; subst h; exact clockEvolution_refl t
  | cons op ops ih =>
      simp only [runOps] at h
      cases happ : applyOp t op with
      | ok tmid =>
          rw [happ] at h
          exact clockEvolution_trans (applyOp_clockEvolution happ) (ih h)
      | error e => rw [happ] at h; exact absurd h (by simp)

theorem runOps_noMutation_clock {ops : List TxOp} {t t' : TxState}
    (hmut : ∀ op ∈ ops, op.isMutation = false)
    (h : runOps t ops = Except.ok t') :
    t'.store.documentClock = t.store.documentClock := by
  induction ops generalizing t with
  | nil => simp only [runOps, Except.ok.injEq] at h; subst h; rfl
  | cons op ops ih =>
      simp only [runOps] at h
      cases op with
      | set id st =>
          exact absurd (hmut _ (List.mem_cons_self _ _)) (by simp [TxOp.isMutation])
      | del id =>
          exact absurd (hmut _ (List.mem_cons_self _ _)) (by simp [TxOp.isMutation])
      | setMeta k v =>
          simp only [applyOp] at h
          exact (ih (fun op hop => hmut op (List.mem_cons_of_mem _ hop)) h).trans rfl
      | throwErr m => simp [applyOp] at h

theorem findCutoff_ge (t : List (String × Int)) (k : Nat) : k ≤ findCutoff t k := by
  by_cases h : k < t.length ∧ optClock t (k - 1) = optClock t k
  · rw [findCutoff, dif_pos h]
    exact Nat.le_trans (Nat.le_succ k) (findCutoff_ge t (k + 1))
  · rw [findCutoff, dif_neg h]
termination_by t.length - k
decreasing_by exact Nat.sub_lt_sub_left h.1 (Nat.lt_succ_self k)

theorem findCutoff_exit (t : List (String × Int)) (k : Nat) :
    ¬(findCutoff t k < t.length ∧
      optClock t (findCutoff t k - 1) = optClock t (findCutoff t k)) := by
  by_cases h : k < t.length ∧ optClock t (k - 1) = optClock t k
  · rw [findCutoff, dif_pos h]
    exact findCutoff_exit t (k + 1)
  · rw [findCutoff, dif_neg h]
    exact h
termination_by t.length - k
decreasing_by exact Nat.sub_lt_sub_left h.1 (Nat.lt_succ_self k)

theorem sorted_desc_le {l : List (String × Int)} (hs : l.Sorted clockGE)
    {i j : Nat} (hij : i ≤ j) (hi : i < l.length) (hj : j < l.length) :
    (l[j]).2 ≤ (l[i]).2 := by
  rcases Nat.eq_or_lt_of_le hij with rfl | hlt
  · exact le_refl _
  · have h2 := hs.rel_get_of_lt (a := ⟨i, hi⟩) (b := ⟨j, hj⟩) (Fin.mk_lt_mk.mpr hlt)
    simpa [clockGE, List.get_eq_getElem] using h2

theorem pruneBody_eq (s : StoreState) (hc : MAX_TOMBSTONES < s.tombstones.length) :
    pruneTombstonesBody s =
      { s with
          tombstoneHistoryStartsAtClock :=
            (optClock (sortTombstonesDesc s.tombstones)
                (findCutoff (sortTombstonesDesc s.tombstones)
                  TOMBSTONE_PRUNE_BUFFER_SIZE)).getD (getClock s),
          tombstones :=
            s.tombstones.filter (fun e =>
              decide (e.1 ∉
                ((sortTombstonesDesc s.tombstones).drop
                    (findCutoff (sortTombstonesDesc s.tombstones)
                      TOMBSTONE_PRUNE_BUFFER_SIZE)).map (fun e => e.1))) } := by
  simp only [pruneTombstonesBody, if_pos hc]

theorem prune_retained_perm (s : StoreState)
    (hnodup : (s.tombstones.map Prod.fst).Nodup)
    (hc : MAX_TOMBSTONES < s.tombstones.length) :
    List.Perm (pruneTombstonesBody s).tombstones
      ((sortTombstonesDesc s.tombstones).take
        (findCutoff (sortTombstonesDesc s.tombstones) TOMBSTONE_PRUNE_BUFFER_SIZE)) := by
  rw [pruneBody_eq s hc]
  have hperm : List.Perm (sortTombstonesDesc s.tombstones) s.tombstones :=
    List.perm_insertionSort clockGE s.tombstones
  have hnodupT : ((sortTombstonesDesc s.tombstones).map Prod.fst).Nodup :=
    (hperm.map Prod.fst).nodup_iff.2 hnodup
  generalize hT : sortTombstonesDesc s.tombstones = T at *
  generalize hk : findCutoff T TOMBSTONE_PRUNE_BUFFER_SIZE = c
  have hdisj : ∀ a ∈ T.take c, a.1 ∉ (T.drop c).map (fun e : String × Int => e.1) := by
    intro a ha hmem
    have h1 : a.1 ∈ (T.take c).map Prod.fst := List.mem_map_of_mem _ ha
    have h2 := hnodupT
    rw [show T.map Prod.fst = (T.take c).map Prod.fst ++ (T.drop c).map Prod.fst by
        rw [← List.map_append, List.take_append_drop],
      List.nodup_append] at h2
    exact h2.2.2 h1 hmem
  have h1 : (T.take c).filter
      (fun e => decide (e.1 ∉ (T.drop c).map (fun e : String × Int => e.1))) =
      T.take c :=
    List.filter_eq_self.2 (fun a ha => by simpa using hdisj a ha)
  have h2 : (T.drop c).filter
      (fun e => decide (e.1 ∉ (T.drop c).map (fun e : String × Int => e.1))) = [] :=
    List.filter_eq_nil_iff.2 (fun a ha => by
      simp only [decide_eq_true_eq, not_not]
      exact List.mem_map_of_mem _ ha)
  have hx := hperm.symm.filter
    (fun e => decide (e.1 ∉ (T.drop c).map (fun e : String × Int => e.1)))
  have hy : T.filter
      (fun e => decide (e.1 ∉ (T.drop c).map (fun e : String × Int => e.1))) =
      T.take c := by
    rw [show T.filter
          (fun e => decide (e.1 ∉ (T.drop c).map (fun e : String × Int => e.1))) =
        (T.take c).filter
            (fun e => decide (e.1 ∉ (T.drop c).map (fun e : String × Int => e.1))) ++
          (T.drop c).filter
            (fun e => decide (e.1 ∉ (T.drop c).map (fun e : String × Int => e.1)))
      from by rw [← List.filter_append, List.take_append_drop], h1, h2, List.append_nil]
  rwa [hy] at hx

theorem sortTombstonesDesc_length (ts : List (String × Int)) :
    (sortTombstonesDesc ts).length = ts.length :=
  (List.perm_insertionSort clockGE ts).length_eq

theorem sortTombstonesDesc_sorted (ts : List (String × Int)) :
    (sortTombstonesDesc ts).Sorted clockGE :=
  List.sorted_insertionSort clockGE ts

theorem prune_drop_bounds (s : StoreState)
    (hnodup : (s.tombstones.map Prod.fst).Nodup)
    (hdrop : (pruneTombstonesBody s).tombstones.length < s.tombstones.length) :
    MAX_TOMBSTONES < s.tombstones.length ∧
      findCutoff (sortTombstonesDesc s.tombstones) TOMBSTONE_PRUNE_BUFFER_SIZE <
        (sortTombstonesDesc s.tombstones).length := by
  by_cases hc : MAX_TOMBSTONES < s.tombstones.length
  · refine ⟨hc, ?_⟩
    by_contra hge
    push_neg at hge
    have hperm := prune_retained_perm s hnodup hc
    rw [List.take_of_length_le hge] at hperm
    have hlen := hperm.length_eq
    rw [sortTombstonesDesc_length] at hlen
    omega
  · have heq : pruneTombstonesBody s = s := by simp [pruneTombstonesBody, hc]
    rw [heq] at hdrop
    omega

/-! ### Claim theorems -/

/-- C9: for every store state, `getChangesSince(getClock())` returns the
empty sequence. -/
theorem getChangesSince_at_current_clock (s : StoreState) :
    getChangesSince s (getClock s) = [] := by
  simp [getChangesSince]

/-- C9 at a concrete store. -/
theorem getChangesSince_at_current_clock_witness :
    getChangesSince s4Store (getClock s4Store) = [] :=
  getChangesSince_at_current_clock s4Store

/-- C8: when `sinceClock > getClock()`, `getChangesSince` raises no error and
returns exactly the batch a fresh caller (`sinceClock = -1`) would receive. -/
theorem getChangesSince_future_cursor (s : StoreState) (sinceClock : Int)
    (h0 : 0 ≤ getClock s) (hgt : getClock s < sinceClock) :
    getChangesSince s sinceClock = getChangesSince s (-1) := by
  have h1 : ¬sinceClock = getClock s := by omega
  have h2 : ¬(-1 : Int) = getClock s := by omega
  have h3 : ¬getClock s < (-1 : Int) := by omega
  simp only [getChangesSince, if_neg h1, if_neg h2, if_pos hgt, if_neg h3]

/-- C8 at a concrete store and cursor. -/
theorem getChangesSince_future_cursor_witness :
    0 ≤ getClock s4Store ∧ getClock s4Store < 20 ∧
      getChangesSince s4Store 20 = getChangesSince s4Store (-1) :=
  ⟨by decide, by decide, getChangesSince_future_cursor s4Store 20 (by decide) (by decide)⟩

/-- C4: a transaction whose body throws propagates the error, the store is
fully rolled back to the pre-call state, and no listener is invoked. -/
theorem transaction_error_rollback (s : StoreState) (source : String) (n : Nat)
    (ops : List TxOp) (e : String)
    (h : runOps ⟨false, s⟩ ops = Except.error e) :
    transaction s source n ops = (s, [], Except.error e) := by
  simp [transaction, h]

/-- C4 at a concrete failing body (spec scenario S6: two writes, then a
thrown error). -/
theorem transaction_error_rollback_witness :
    runOps ⟨false, emptyStore⟩
        [TxOp.set "a" "x", TxOp.set "b" "y", TxOp.throwErr "boom"] =
      Except.error "boom" ∧
    transaction emptyStore "src" 2
        [TxOp.set "a" "x", TxOp.set "b" "y", TxOp.throwErr "boom"] =
      (emptyStore, [], Except.error "boom") :=
  ⟨by rfl,
    transaction_error_rollback emptyStore "src" 2
      [TxOp.set "a" "x", TxOp.set "b" "y", TxOp.throwErr "boom"] "boom" (by rfl)⟩

/-- C5: listeners fire exactly when the post-body clock exceeds the pre-call
clock; each of the `n` listeners receives `(source, clockAfter)`; the
returned result carries `(clockAfter, didChange)`; a body without document
mutations fires no listener. -/
theorem transaction_listeners (s : StoreState) (source : String) (n : Nat)
    (ops : List TxOp) (t : TxState)
    (hok : runOps ⟨false, s⟩ ops = Except.ok t) :
    (transaction s source n ops).2.1 =
      (if getClock s < getClock t.store then
        List.replicate n (source, getClock t.store)
      else []) ∧
    (transaction s source n ops).2.2 =
      Except.ok ⟨getClock t.store, decide (getClock s < getClock t.store)⟩ ∧
    ((∀ op ∈ ops, op.isMutation = false) → (transaction s source n ops).2.1 = []) := by
  refine ⟨by simp [transaction, hok], by simp [transaction, hok], ?_⟩
  intro hmut
  have hclock := runOps_noMutation_clock hmut hok
  simp [transaction, hok, getClock, hclock]

/-- C5 at a concrete mutating transaction with two listeners. -/
theorem transaction_listeners_witness :
    (transaction emptyStore "src" 2 [TxOp.set "a" "x"]).2.1 =
      [("src", 1), ("src", 1)] := by
  have h :=
    transaction_listeners emptyStore "src" 2 [TxOp.set "a" "x"]
      ⟨true, ⟨[("a", ⟨"x", 1⟩)], [], [], 1, 0⟩⟩ (by rfl)
  rw [h.1]
  rfl

/-- C6: a committed transaction advances `documentClock` at most once:
`newClock ≤ clockBefore + 1`, no matter how many mutations the body makes. -/
theorem transaction_clock_bound (s : StoreState) (source : String) (n : Nat)
    (ops : List TxOp) (r : TxnResult)
    (h : (transaction s source n ops).2.2 = Except.ok r) :
    r.documentClock ≤ getClock s + 1 := by
  cases hrun : runOps ⟨false, s⟩ ops with
  | error e =>
      rw [transaction] at h
      rw [hrun] at h
      exact absurd h (by simp)
  | ok t =>
      rw [transaction] at h
      rw [hrun] at h
      simp only [Except.ok.injEq] at h
      have hr : r.documentClock = t.store.documentClock := by rw [← h]; rfl
      rcases runOps_clockEvolution hrun with ⟨_, hc⟩ | ⟨_, _, hc⟩ <;>
        simp only [getClock, hr, hc] <;> omega

/-- C6 at a concrete body with three mutations. -/
theorem transaction_clock_bound_witness :
    (transaction emptyStore "s" 0
        [TxOp.set "a" "x", TxOp.set "b" "y", TxOp.del "a"]).2.2 =
      Except.ok ⟨1, true⟩ ∧
    (1 : Int) ≤ getClock emptyStore + 1 :=
  ⟨by rfl,
    transaction_clock_bound emptyStore "s" 0
      [TxOp.set "a" "x", TxOp.set "b" "y", TxOp.del "a"] ⟨1, true⟩ (by rfl)⟩

/-- C10: the prune body never touches `documents`, `metadata` or
`documentClock`; when the tombstone count is at most `MAX_TOMBSTONES` it
changes nothing at all. -/
theorem pruneTombstonesBody_frame (s : StoreState) :
    (pruneTombstonesBody s).documents = s.documents ∧
    (pruneTombstonesBody s).metadata = s.metadata ∧
    (pruneTombstonesBody s).documentClock = s.documentClock ∧
    (s.tombstones.length ≤ MAX_TOMBSTONES → pruneTombstonesBody s = s) := by
  by_cases hc : MAX_TOMBSTONES < s.tombstones.length
  · refine ⟨by simp [pruneTombstonesBody, hc], by simp [pruneTombstonesBody, hc],
      by simp [pruneTombstonesBody, hc], fun hle => absurd hc (by omega)⟩
  · simp [pruneTombstonesBody, hc]

/-- C10 at a concrete store below the tombstone cap. -/
theorem pruneTombstonesBody_frame_witness :
    (pruneTombstonesBody s4Store).documents = s4Store.documents ∧
      pruneTombstonesBody s4Store = s4Store :=
  ⟨(pruneTombstonesBody_frame s4Store).1,
    (pruneTombstonesBody_frame s4Store).2.2.2 (by decide)⟩

/-- C1 (bug evaluation): `setDocument` does not remove an existing tombstone,
so after the transaction body `deleteDocument("a"); setDocument("a", "x")`
the id `"a"` is present in both `documents` and `tombstones` at the
transaction boundary, violating the disjoint-keyspace invariant. -/
theorem setDocument_leaves_tombstone :
    tableHas
        (transaction emptyStore "src" 0 [TxOp.del "a", TxOp.set "a" "x"]).1.documents
        "a" = true ∧
    tableHas
        (transaction emptyStore "src" 0 [TxOp.del "a", TxOp.set "a" "x"]).1.tombstones
        "a" = true :=
  ⟨rfl, rfl⟩

theorem cexTombstones_length : cexTombstones.length = 5001 := by
  simp [cexTombstones]

theorem cexTombstones_sorted : cexTombstones.Sorted clockGE := by
  rw [cexTombstones, List.Sorted, List.pairwise_map]
  refine (List.pairwise_lt_range 5001).imp ?_
  intro i j hij
  simp only [clockGE]
  omega

theorem cexTombstones_sort_eq : sortTombstonesDesc cexTombstones = cexTombstones :=
  cexTombstones_sorted.insertionSort_eq

theorem cexTombstones_optClock (i : Nat) (h : i < 5001) :
    optClock cexTombstones i = some (5001 - (i : Int)) := by
  rw [optClock, cexTombstones, List.getElem?_map, List.getElem?_range h]
  rfl

theorem cexTombstones_cutoff :
    findCutoff cexTombstones TOMBSTONE_PRUNE_BUFFER_SIZE = TOMBSTONE_PRUNE_BUFFER_SIZE := by
  rw [findCutoff, dif_neg]
  rintro ⟨h1, h2⟩
  rw [show TOMBSTONE_PRUNE_BUFFER_SIZE - 1 = 999 from rfl,
    show TOMBSTONE_PRUNE_BUFFER_SIZE = 1000 from rfl,
    cexTombstones_optClock 999 (by omega), cexTombstones_optClock 1000 (by omega)] at h2
  simp only [Option.some.injEq] at h2
  omega

theorem cexTombstones_nodup : (cexTombstones.map Prod.fst).Nodup := by
  rw [cexTombstones, List.map_map]
  refine List.Nodup.map ?_ (List.nodup_range 5001)
  intro i j hij
  have h := congrArg (fun st => st.data.length) hij
  simpa using h

theorem cexStore_count : MAX_TOMBSTONES < cexStore.tombstones.length := by
  rw [show cexStore.tombstones = cexTombstones from rfl, cexTombstones_length,
    show MAX_TOMBSTONES = 5000 from rfl]
  omega

theorem cexStore_retained_length :
    (pruneTombstonesBody cexStore).tombstones.length = 1000 := by
  have hperm := prune_retained_perm cexStore cexTombstones_nodup cexStore_count
  rw [hperm.length_eq, show cexStore.tombstones = cexTombstones from rfl,
    cexTombstones_sort_eq, cexTombstones_cutoff, List.length_take, cexTombstones_length,
    show TOMBSTONE_PRUNE_BUFFER_SIZE = 1000 from rfl]
  omega

theorem cexStore_drops :
    (pruneTombstonesBody cexStore).tombstones.length < cexStore.tombstones.length := by
  rw [cexStore_retained_length, show cexStore.tombstones = cexTombstones from rfl,
    cexTombstones_length]
  omega

theorem prune_watermark_spec (s : StoreState)
    (hnodup : (s.tombstones.map Prod.fst).Nodup)
    (hdrop : (pruneTombstonesBody s).tombstones.length < s.tombstones.length) :
    (∃ d ∈ s.tombstones, d ∉ (pruneTombstonesBody s).tombstones ∧
        d.2 = (pruneTombstonesBody s).tombstoneHistoryStartsAtClock) ∧
    (∀ d ∈ s.tombstones, d ∉ (pruneTombstonesBody s).tombstones →
        d.2 ≤ (pruneTombstonesBody s).tombstoneHistoryStartsAtClock) ∧
    (∀ r ∈ (pruneTombstonesBody s).tombstones,
        (pruneTombstonesBody s).tombstoneHistoryStartsAtClock < r.2) := by
  obtain ⟨hc, hlt⟩ := prune_drop_bounds s hnodup hdrop
  have hperm : List.Perm (sortTombstonesDesc s.tombstones) s.tombstones :=
    List.perm_insertionSort clockGE s.tombstones
  have hsorted := sortTombstonesDesc_sorted s.tombstones
  have hret := prune_retained_perm s hnodup hc
  have hpb := pruneBody_eq s hc
  have hexit := findCutoff_exit (sortTombstonesDesc s.tombstones) TOMBSTONE_PRUNE_BUFFER_SIZE
  have hge := findCutoff_ge (sortTombstonesDesc s.tombstones) TOMBSTONE_PRUNE_BUFFER_SIZE
  set T := sortTombstonesDesc s.tombstones with hT
  set c := findCutoff T TOMBSTONE_PRUNE_BUFFER_SIZE with hk
  have hc1 : c - 1 < T.length := by omega
  have hWeq : (pruneTombstonesBody s).tombstoneHistoryStartsAtClock = (T[c]).2 := by
    rw [hpb]
    show (optClock T c).getD (getClock s) = (T[c]).2
    rw [optClock, List.getElem?_eq_getElem hlt]
    rfl
  have hbuf : 1 ≤ TOMBSTONE_PRUNE_BUFFER_SIZE := by norm_num [TOMBSTONE_PRUNE_BUFFER_SIZE]
  have hneval : (T[c - 1]).2 ≠ (T[c]).2 := by
    intro heq
    apply hexit
    refine ⟨hlt, ?_⟩
    rw [optClock, optClock, List.getElem?_eq_getElem hc1, List.getElem?_eq_getElem hlt]
    simp [heq]
  have hstrict : (T[c]).2 < (T[c - 1]).2 :=
    lt_of_le_of_ne (sorted_desc_le hsorted (by omega) hc1 hlt) hneval.symm
  have hretained_gt : ∀ r ∈ T.take c, (T[c]).2 < r.2 := by
    intro r hr
    obtain ⟨i, hi, heq⟩ := List.mem_take_iff_getElem.1 hr
    have hic : i < c := lt_of_lt_of_le hi (min_le_left _ _)
    have hiT : i < T.length := lt_of_lt_of_le hi (min_le_right _ _)
    have h2 : (T[c - 1]).2 ≤ (T[i]).2 := sorted_desc_le hsorted (by omega) hiT hc1
    rw [← heq]
    exact lt_of_lt_of_le hstrict h2
  have hdropped_le : ∀ d ∈ T.drop c, d.2 ≤ (T[c]).2 := by
    intro d hd
    obtain ⟨i, hm, heq⟩ := List.mem_drop_iff_getElem.1 hd
    rw [← heq]
    exact sorted_desc_le hsorted (Nat.le_add_right c i) hlt (by omega)
  have hdropped_mem : ∀ d ∈ s.tombstones, d ∉ (pruneTombstonesBody s).tombstones →
      d ∈ T.drop c := by
    intro d hds hnret
    have hdT : d ∈ T := hperm.mem_iff.2 hds
    rw [← List.take_append_drop c T, List.mem_append] at hdT
    rcases hdT with h | h
    · exact absurd (hret.mem_iff.2 h) hnret
    · exact h
  refine ⟨⟨T[c], hperm.mem_iff.1 (List.getElem_mem hlt), ?_, hWeq.symm⟩, ?_, ?_⟩
  · intro hmem
    exact lt_irrefl _ (hretained_gt _ (hret.mem_iff.1 hmem))
  · intro d hds hnret
    rw [hWeq]
    exact hdropped_le d (hdropped_mem d hds hnret)
  · intro r hr
    rw [hWeq]
    exact hretained_gt r (hret.mem_iff.1 hr)

theorem pruneBody_watermark_eq (s : StoreState)
    (hc : MAX_TOMBSTONES < s.tombstones.length) :
    (pruneTombstonesBody s).tombstoneHistoryStartsAtClock =
      (optClock (sortTombstonesDesc s.tombstones)
        (findCutoff (sortTombstonesDesc s.tombstones)
          TOMBSTONE_PRUNE_BUFFER_SIZE)).getD (getClock s) := by
  rw [pruneBody_eq s hc]

theorem cexStore_watermark :
    (pruneTombstonesBody cexStore).tombstoneHistoryStartsAtClock = 4001 := by
  rw [pruneBody_watermark_eq cexStore cexStore_count,
    show cexStore.tombstones = cexTombstones from rfl, cexTombstones_sort_eq,
    cexTombstones_cutoff, show TOMBSTONE_PRUNE_BUFFER_SIZE = 1000 from rfl,
    cexTombstones_optClock 1000 (by omega), Option.getD_some]
  norm_num

/-- C3 (amended): when a prune run drops at least one tombstone, the new
watermark `tombstoneHistoryStartsAtClock` equals the clock of the newest
dropped tombstone: some dropped tombstone's clock equals the watermark, every
dropped tombstone's clock is at most the watermark, and every retained
tombstone's clock is strictly greater — so the watermark is NOT the oldest
retained tombstone's clock. -/
theorem pruneTombstones_watermark (s : StoreState)
    (hnodup : (s.tombstones.map Prod.fst).Nodup)
    (hdrop : (pruneTombstonesBody s).tombstones.length < s.tombstones.length) :
    (∃ d ∈ s.tombstones, d ∉ (pruneTombstonesBody s).tombstones ∧
        d.2 = (pruneTombstonesBody s).tombstoneHistoryStartsAtClock) ∧
    (∀ d ∈ s.tombstones, d ∉ (pruneTombstonesBody s).tombstones →
        d.2 ≤ (pruneTombstonesBody s).tombstoneHistoryStartsAtClock) ∧
    (∀ r ∈ (pruneTombstonesBody s).tombstones,
        (pruneTombstonesBody s).tombstoneHistoryStartsAtClock < r.2) :=
  prune_watermark_spec s hnodup hdrop

/-- C3 (amended) at the 5001-tombstone store: the prune run drops tombstones
and every retained tombstone's clock is strictly above the new watermark. -/
theorem pruneTombstones_watermark_witness :
    (pruneTombstonesBody cexStore).tombstones.length < cexStore.tombstones.length ∧
    ∀ r ∈ (pruneTombstonesBody cexStore).tombstones,
      (pruneTombstonesBody cexStore).tombstoneHistoryStartsAtClock < r.2 :=
  ⟨cexStore_drops,
    (pruneTombstones_watermark cexStore cexTombstones_nodup cexStore_drops).2.2⟩

/-- C3 (counterexample to the claim as stated): on a store with 5001
tombstones with distinct clocks 1..5001, the prune run drops tombstones,
sets the watermark to 4001 — the newest dropped clock — yet no retained
tombstone (in particular not the oldest retained one, whose clock is 4002)
has clock equal to the watermark. -/
theorem pruneTombstones_watermark_cex :
    (pruneTombstonesBody cexStore).tombstones ≠ [] ∧
    (pruneTombstonesBody cexStore).tombstones.length < cexStore.tombstones.length ∧
    (pruneTombstonesBody cexStore).tombstoneHistoryStartsAtClock = 4001 ∧
    ∀ r ∈ (pruneTombstonesBody cexStore).tombstones,
      r.2 ≠ (pruneTombstonesBody cexStore).tombstoneHistoryStartsAtClock := by
  have h := prune_watermark_spec cexStore cexTombstones_nodup cexStore_drops
  refine ⟨?_, cexStore_drops, cexStore_watermark, fun r hr => ne_of_gt (h.2.2 r hr)⟩
  intro hnil
  have hlen := cexStore_retained_length
  rw [hnil] at hlen
  simp at hlen

theorem wipe_not_mem_put_map (l : List (String × DocRow)) (p : String × DocRow → Bool) :
    Change.wipeAll ∉ (l.filter p).map (fun d => Change.put d.2.state) := by
  simp

theorem wipe_not_mem_delete_map (l : List (String × Int)) (p : String × Int → Bool) :
    Change.wipeAll ∉ (l.filter p).map (fun t => Change.delete t.1) := by
  simp

/-- C7 (amended): for `sinceClock ≠ getClock()` on a well-formed store, the
batch contains `WIPE_ALL` exactly when the *effective* cursor falls below the
watermark — that is, when `sinceClock < tombstoneHistoryStartsAtClock` or
`sinceClock > getClock()` (the corrupted-cursor reset); `WIPE_ALL` occurs at
most once, is first when present, and then the `PUT` entries cover every
document. -/
theorem getChangesSince_wipe_spec (s : StoreState) (hwf : WellFormed s)
    (sinceClock : Int) (hne : sinceClock ≠ getClock s) :
    (Change.wipeAll ∈ getChangesSince s sinceClock ↔
      (sinceClock < s.tombstoneHistoryStartsAtClock ∨ getClock s < sinceClock)) ∧
    (getChangesSince s sinceClock).count Change.wipeAll ≤ 1 ∧
    (Change.wipeAll ∈ getChangesSince s sinceClock →
      (getChangesSince s sinceClock).head? = some Change.wipeAll) ∧
    (Change.wipeAll ∈ getChangesSince s sinceClock →
      ∀ d ∈ s.documents, Change.put d.2.state ∈ getChangesSince s sinceClock) := by
  obtain ⟨hc0, hw0, hdocs, -⟩ := hwf
  have hne' : ¬sinceClock = getClock s := hne
  simp only [getChangesSince, if_neg hne']
  by_cases hgt : getClock s < sinceClock
  · have hw' : (-1 : Int) < s.tombstoneHistoryStartsAtClock := by omega
    simp only [if_pos hgt, if_pos hw', List.singleton_append, List.cons_append]
    refine ⟨?_, ?_, fun _ => rfl, fun _ d hd => ?_⟩
    · simp only [List.mem_cons, true_or, true_iff]
      exact Or.inr hgt
    · simp only [List.count_cons, List.count_append, beq_self_eq_true, if_true]
      rw [List.count_eq_zero.2 (wipe_not_mem_put_map _ _),
        List.count_eq_zero.2 (wipe_not_mem_delete_map _ _)]
      simp
    · refine List.mem_cons_of_mem _ (List.mem_append_left _ ?_)
      exact List.mem_map_of_mem _
        (List.mem_filter.2 ⟨hd, by have := hdocs d hd; simpa using by omega⟩)
  · simp only [if_neg hgt]
    by_cases hww : sinceClock < s.tombstoneHistoryStartsAtClock
    · simp only [if_pos hww, List.singleton_append, List.cons_append]
      refine ⟨?_, ?_, fun _ => rfl, fun _ d hd => ?_⟩
      · simp only [List.mem_cons, true_or, true_iff]
        exact Or.inl hww
      · simp only [List.count_cons, List.count_append, beq_self_eq_true, if_true]
        rw [List.count_eq_zero.2 (wipe_not_mem_put_map _ _),
          List.count_eq_zero.2 (wipe_not_mem_delete_map _ _)]
        simp
      · refine List.mem_cons_of_mem _ (List.mem_append_left _ ?_)
        exact List.mem_map_of_mem _
          (List.mem_filter.2 ⟨hd, by have := hdocs d hd; simpa using by omega⟩)
    · simp only [if_neg hww, List.nil_append]
      have hnm : Change.wipeAll ∉
          (s.documents.filter fun d => sinceClock < d.2.lastChangedClock).map
              (fun d => Change.put d.2.state) ++
            (s.tombstones.filter fun t => sinceClock < t.2).map
              (fun t => Change.delete t.1) := by
        rw [List.mem_append]
        rintro (h | h)
        · exact wipe_not_mem_put_map _ _ h
        · exact wipe_not_mem_delete_map _ _ h
      refine ⟨?_, ?_, fun hm => absurd hm hnm, fun hm => absurd hm hnm⟩
      · simp only [iff_false, hww, hgt, or_self, false_iff]
        exact hnm
      · rw [List.count_eq_zero.2 hnm]
        omega

/-- C7 (amended) at spec scenario S4: `getChangesSince(5)` on a store with
watermark 10 puts `WIPE_ALL` first and re-sends the document. -/
theorem getChangesSince_wipe_spec_witness :
    (getChangesSince s4Store 5).head? = some Change.wipeAll ∧
      Change.put "sd" ∈ getChangesSince s4Store 5 := by
  have h := getChangesSince_wipe_spec s4Store
    (by unfold WellFormed; decide) 5 (by decide)
  have hmem : Change.wipeAll ∈ getChangesSince s4Store 5 := h.1.2 (Or.inl (by decide))
  exact ⟨h.2.2.1 hmem, h.2.2.2 hmem ("d", ⟨"sd", 12⟩) (by decide)⟩

/-- C7 (counterexample to the claim as stated): at scenario S4's store with
cursor 20 (> clock 12), the batch contains `WIPE_ALL` even though the
caller's `sinceClock` is not below the watermark 10. -/
theorem getChangesSince_wipe_cex :
    (20 : Int) ≠ getClock s4Store ∧
    Change.wipeAll ∈ getChangesSince s4Store 20 ∧
    ¬(20 : Int) < s4Store.tombstoneHistoryStartsAtClock := by
  refine ⟨by decide, by decide, by decide⟩

/-- C2 (bug evaluation): `deleteDocument` issues a plain `INSERT` into
`tombstones`, so deleting an id that already has a tombstone throws a UNIQUE
constraint error instead of replacing the tombstone at the new clock. -/
theorem deleteDocument_existing_tombstone_errors :
    runOps ⟨false, emptyStore⟩ [TxOp.del "a", TxOp.del "a"] =
      Except.error "UNIQUE constraint failed: tombstones.id" :=
  rfl

end SqlLiteSyncStorage
